import Mathlib

/-!
Verification of the KML/KMZ-to-spreadsheet converter (src/main.py).

The development shallowly embeds the coordinate-extraction and
polygon-geometry pipeline of the program:

- Python floats are modeled as rational numbers; the float operations
  performed by the program on the inputs of interest (decimal-literal
  parsing, sums, products, divisions) are exact on such inputs, so the
  rational model agrees with the float semantics there.
- XML documents, once past xml.etree.ElementTree, are modeled as rose
  trees of elements carrying a fully qualified tag, optional text, and
  children; an input string that is not well-formed XML is modeled by a
  dedicated constructor, since ET.fromstring raising ParseError on it is
  library behavior the program merely observes.
- Python exceptions are modeled by an error type threaded through
  Except; Python in-place list mutation (coords.append in
  calcular_superficie_hectareas) is modeled by returning the final list.
- Arithmetic inside the embedded functions is written with
  kernel-computable wrappers (qAdd, qMul, qDiv, qAbs) built on
  Rat.divInt, so that concrete runs of the embedded code evaluate by
  decide; bridge lemmas identify the wrappers with the Mathlib field
  operations for the general theorems.
-/

/-- Kernel-computable addition on the rationals, used inside the embedded
code so concrete runs reduce by decide. Equal to ordinary addition by
qAdd_eq. -/
def qAdd (a b : ℚ) : ℚ := Rat.divInt (a.num * b.den + b.num * a.den) (a.den * b.den)

/-- Kernel-computable multiplication on the rationals. Equal to ordinary
multiplication by qMul_eq. -/
def qMul (a b : ℚ) : ℚ := Rat.divInt (a.num * b.num) (a.den * b.den)

/-- Kernel-computable subtraction on the rationals. Equal to ordinary
subtraction by qSub_eq. -/
def qSub (a b : ℚ) : ℚ := qAdd a (-b)

/-- Kernel-computable division on the rationals. Equal to ordinary
division by qDiv_eq. -/
def qDiv (a b : ℚ) : ℚ := Rat.divInt (a.num * b.den) (a.den * b.num)

/-- Kernel-computable absolute value on the rationals. Equal to the
ordinary absolute value by qAbs_eq. -/
def qAbs (a : ℚ) : ℚ := if a.num < 0 then -a else a

/-- Characters treated as whitespace by the Python str.strip and
str.split methods, restricted to the ASCII range (the coordinate text and
filenames handled by the program are ASCII). -/
def isPySpace (c : Char) : Bool :=
  c = ' ' ∨ c = '\t' ∨ c = '\n' ∨ c = '\r' ∨ c = '\x0b' ∨ c = '\x0c'

/-- Model of the Python str.strip method on a character list. -/
def pyStrip (cs : List Char) : List Char :=
  ((cs.dropWhile isPySpace).reverse.dropWhile isPySpace).reverse

/-- Splits a character list at every character satisfying p, keeping
empty fragments, like the Python str.split method with an explicit
separator. -/
def splitChars (p : Char → Bool) : List Char → List Char → List (List Char)
  | [], acc => [acc.reverse]
  | c :: cs, acc =>
    if p c then acc.reverse :: splitChars p cs [] else splitChars p cs (c :: acc)

/-- Model of the Python split on a comma separator, line.split in
parse_kml (src/main.py line 26): fragments between commas, empties
kept. -/
def splitComma (cs : List Char) : List (List Char) :=
  splitChars (fun c => c = ',') cs []

/-- Model of the Python no-argument str.split, text.split in parse_kml
(src/main.py line 25): splits on whitespace runs, discarding empty
fragments. -/
def pySplitWs (cs : List Char) : List (List Char) :=
  (splitChars isPySpace cs []).filter (fun t => t ≠ [])

/-- Value of a digit list under left-to-right accumulation. -/
def digitsVal : List Char → Nat → Nat
  | [], acc => acc
  | c :: cs, acc => digitsVal cs (acc * 10 + (c.toNat - 48))

/-- Rational value of a parsed float literal: sign, integer digits,
fraction digits and decimal exponent. -/
def pyFloatVal (sgn : Int) (ip fp : List Char) (exp : Int) : ℚ :=
  let mant : Int := sgn * (digitsVal (ip ++ fp) 0 : Nat)
  if 0 ≤ exp then Rat.divInt (mant * (10 : Int) ^ exp.toNat) ((10 : Int) ^ fp.length)
  else Rat.divInt mant ((10 : Int) ^ fp.length * (10 : Int) ^ (-exp).toNat)

/-- Model of the Python float builtin on the decimal-literal fragment of
its input language: optional surrounding whitespace, optional sign,
digits with an optional fraction and an optional decimal exponent.
Returns none where float raises ValueError. The inf and nan spellings
and underscore digit separators accepted by float have no rational
counterpart and do not occur in coordinate data; they are outside this
model. -/
def pyFloat (cs0 : List Char) : Option ℚ :=
  let cs1 := pyStrip cs0
  let sgn : Int := match cs1 with
    | '+' :: _ => 1
    | '-' :: _ => -1
    | _ => 1
  let cs2 : List Char := match cs1 with
    | '+' :: r => r
    | '-' :: r => r
    | _ => cs1
  let ip := cs2.takeWhile Char.isDigit
  let cs3 := cs2.dropWhile Char.isDigit
  let fp : List Char := match cs3 with
    | '.' :: r => r.takeWhile Char.isDigit
    | _ => []
  let cs4 : List Char := match cs3 with
    | '.' :: r => r.dropWhile Char.isDigit
    | _ => cs3
  if ip = [] ∧ fp = [] then none
  else
    match cs4 with
    | [] => some (pyFloatVal sgn ip fp 0)
    | e :: r =>
      if e = 'e' ∨ e = 'E' then
        let esgn : Int := match r with
          | '+' :: _ => 1
          | '-' :: _ => -1
          | _ => 1
        let r2 : List Char := match r with
          | '+' :: rr => rr
          | '-' :: rr => rr
          | _ => r
        let ed := r2.takeWhile Char.isDigit
        let r3 := r2.dropWhile Char.isDigit
        if ed = [] ∨ r3 ≠ [] then none
        else some (pyFloatVal sgn ip fp (esgn * (digitsVal ed 0 : Nat)))
      else none

/-- Decimal digit list of a natural number, most significant first; the
first argument is recursion fuel, instantiated with the number itself. -/
def natDigitsAux : Nat → Nat → List Char
  | 0, _ => []
  | fuel + 1, n =>
    if n = 0 then [] else natDigitsAux fuel (n / 10) ++ [Char.ofNat (48 + n % 10)]

/-- Decimal digit list of a natural number. -/
def natDigits (n : Nat) : List Char :=
  if n = 0 then ['0'] else natDigitsAux n n

/-- Removes every factor p from n, returning the multiplicity and the
remaining cofactor; the first numeric argument is recursion fuel. -/
def stripFacAux (p : Nat) : Nat → Nat → Nat × Nat
  | 0, n => (0, n)
  | fuel + 1, n =>
    if 2 ≤ p ∧ n ≠ 0 ∧ n % p = 0 then
      let r := stripFacAux p fuel (n / p)
      (r.1 + 1, r.2)
    else (0, n)

/-- Multiplicity of p in n together with the cofactor. -/
def stripFac (p n : Nat) : Nat × Nat := stripFacAux p n n

/-- Model of the default Python float string representation, as used by
the f-string in calcular_superficie_hectareas (src/main.py line 95).
Rationals with a power-of-ten-compatible denominator are printed in the
shortest plain decimal form, matching repr of an exactly represented
float (for example 0.5, 2.0, -1.25); other rationals, which do not arise
from the concrete inputs in this development, are printed as fractions. -/
def qReprChars (q : ℚ) : List Char :=
  let s2 := stripFac 2 q.den
  let s5 := stripFac 5 s2.2
  if s5.2 = 1 then
    let k := max s2.1 s5.1
    let scaled := q.num.natAbs * 10 ^ k / q.den
    let ds := natDigits scaled
    let ds2 := if ds.length < k + 1 then List.replicate (k + 1 - ds.length) '0' ++ ds else ds
    (if q.num < 0 then ['-'] else []) ++ ds2.take (ds2.length - k) ++
      ['.'] ++ (if k = 0 then ['0'] else ds2.drop (ds2.length - k))
  else
    (if q.num < 0 then ['-'] else []) ++ natDigits q.num.natAbs ++ ['/'] ++ natDigits q.den

/-- String form of qReprChars. -/
def qRepr (q : ℚ) : String := String.mk (qReprChars q)

/-- Nearest integer to x with ties going to the even integer, the
rounding used by the Python round builtin. -/
def roundHalfEven (x : ℚ) : Int :=
  let f := x.floor
  let r := qSub x (Rat.ofInt f)
  if 2 * r.num < (r.den : Int) then f
  else if (r.den : Int) < 2 * r.num then f + 1
  else if f % 2 = 0 then f else f + 1

/-- Model of the Python round(x, 1) call in calcular_superficie_hectareas
(src/main.py line 91): round to one decimal place, ties to even. On a
float, round works on the binary value, so a decimal tie can fall either
way depending on the representation; on the inputs of interest in this
development no tie arises and the rational rounding agrees with the
float one. -/
def pyRound1 (q : ℚ) : ℚ := qDiv (Rat.ofInt (roundHalfEven (qMul q 10))) 10

/-- Python exceptions that the embedded pipeline can raise, one
constructor per raise site. The valueErrorFloat, valueErrorRing and
valueErrorExt constructors are all ValueError in Python; they are kept
apart here so theorems can name the raise site. The centroidFallback
constructor is not an exception in Python: it marks the zero-area
polygons on which the geometry library computes the centroid by a
length-weighted fallback whose value involves square roots and is
outside this rational model. -/
inductive PyError where
  /-- ET.fromstring raised on input that is not well-formed XML. -/
  | parseError
  /-- elem.text.strip() with elem.text equal to None (src/main.py line 24). -/
  | attributeError
  /-- parts with fewer than two fields indexed at parts[1], or coords[0]
  on an empty list (src/main.py lines 27 and 84). -/
  | indexError
  /-- float() applied to a non-numeric field (src/main.py line 27). -/
  | valueErrorFloat
  /-- the geometry library rejecting a ring with fewer than four
  coordinates after closing (src/main.py line 89). -/
  | valueErrorRing
  /-- the explicit raise for an extension other than kml or kmz
  (src/main.py line 68). -/
  | valueErrorExt
  /-- bytes that are not valid UTF-8 decoded in read_kml_file or on a
  kmz entry (src/main.py lines 34 and 46). -/
  | unicodeDecodeError
  /-- zipfile.ZipFile raised on content that is not a zip archive
  (src/main.py line 42). -/
  | badZipFile
  /-- marker for the out-of-model centroid of a zero-area polygon. -/
  | centroidFallback
deriving DecidableEq

deriving instance DecidableEq for Except

/-- An XML element as exposed by xml.etree.ElementTree: fully qualified
tag in Clark notation, the text directly below the element (None when
there is none), and the child elements in document order. -/
inductive XmlElem where
  | mk (tag : String) (text : Option String) (children : List XmlElem)

/-- Tag of an element. -/
def XmlElem.tag : XmlElem → String
  | .mk t _ _ => t

/-- Text of an element. -/
def XmlElem.text : XmlElem → Option String
  | .mk _ tx _ => tx

/-- Children of an element. -/
def XmlElem.children : XmlElem → List XmlElem
  | .mk _ _ cs => cs

/-- The qualified tag matched by root.findall with the kml namespace
mapping (src/main.py lines 21 and 23). -/
def coordTag : String := "\x7bhttp://www.opengis.net/kml/2.2\x7dcoordinates"

mutual
/-- Elements with the namespaced coordinates tag in the subtree rooted at
an element, the element itself included, in document order. -/
def elemMatches : XmlElem → List XmlElem
  | .mk t tx cs => (if t = coordTag then [XmlElem.mk t tx cs] else []) ++ listMatches cs
/-- Elements with the namespaced coordinates tag in a forest, in document
order. -/
def listMatches : List XmlElem → List XmlElem
  | [] => []
  | e :: es => elemMatches e ++ listMatches es
end

/-- Model of root.findall(".//kml:coordinates", ns) (src/main.py line
23): every descendant of the root, at any depth, whose tag is the
namespaced coordinates tag, in document order; the root itself is not a
candidate for the descendant axis. -/
def findallCoords (root : XmlElem) : List XmlElem :=
  listMatches root.children

/-- Text content of a kml document handed to parse_kml: either not
well-formed XML, on which ET.fromstring raises ParseError, or the parsed
element tree. -/
inductive KmlText where
  | malformed
  | wellFormed (root : XmlElem)

/-- One whitespace-separated coordinate token (src/main.py lines 26 to
27): split on commas, float the first field as longitude, index and
float the second as latitude, in Python evaluation order. Fields beyond
the second are never touched. -/
def parseToken (tok : List Char) : Except PyError (ℚ × ℚ) :=
  let parts := splitComma tok
  match parts with
  | [] => Except.error PyError.indexError
  | p0 :: rest =>
    match pyFloat p0 with
    | none => Except.error PyError.valueErrorFloat
    | some lon =>
      match rest with
      | [] => Except.error PyError.indexError
      | p1 :: _ =>
        match pyFloat p1 with
        | none => Except.error PyError.valueErrorFloat
        | some lat => Except.ok (lon, lat)

/-- Folds parseToken over the tokens of one coordinates element,
accumulating pairs in order; the first exception propagates. -/
def tokensParse : List (List Char) → Except PyError (List (ℚ × ℚ))
  | [] => Except.ok []
  | tk :: tks =>
    match parseToken tk with
    | Except.error e => Except.error e
    | Except.ok c =>
      match tokensParse tks with
      | Except.error e => Except.error e
      | Except.ok cs => Except.ok (c :: cs)

/-- Processing of one matched coordinates element (src/main.py lines 24
to 28): elem.text.strip() raises AttributeError when the element has no
text at all; otherwise the stripped text is whitespace-split and every
token is parsed. -/
def parseElem (e : XmlElem) : Except PyError (List (ℚ × ℚ)) :=
  match e.text with
  | none => Except.error PyError.attributeError
  | some t => tokensParse (pySplitWs (pyStrip t.data))

/-- Folds parseElem over the matched elements, concatenating the pairs
in document order. -/
def elemsParse : List XmlElem → Except PyError (List (ℚ × ℚ))
  | [] => Except.ok []
  | e :: es =>
    match parseElem e with
    | Except.error err => Except.error err
    | Except.ok cs =>
      match elemsParse es with
      | Except.error err => Except.error err
      | Except.ok rest => Except.ok (cs ++ rest)

/-- Model of parse_kml (src/main.py lines 12 to 29): ET.fromstring, then
for every namespaced coordinates element anywhere under the root, strip
and whitespace-split its text and parse each token into a
(longitude, latitude) pair, concatenating across elements in document
order. -/
def parse_kml : KmlText → Except PyError (List (ℚ × ℚ))
  | .malformed => Except.error PyError.parseError
  | .wellFormed root => elemsParse (findallCoords root)

/-- Byte content of a kml document before decoding: either bytes that
are not valid UTF-8, on which decode raises UnicodeDecodeError, or the
decoded text. -/
inductive KmlBytes where
  | notUtf8
  | utf8 (text : KmlText)

/-- Decoding followed by parsing, shared by read_kml_file (src/main.py
lines 32 to 36, the open with encoding utf-8 plus parse_kml) and by the
per-entry body of read_kmz_file (lines 45 to 47). -/
def decodeParse : KmlBytes → Except PyError (List (ℚ × ℚ))
  | .notUtf8 => Except.error PyError.unicodeDecodeError
  | .utf8 t => parse_kml t

/-- Model of read_kml_file (src/main.py lines 32 to 36): read the file
as UTF-8 text and hand it to parse_kml. -/
def read_kml_file (b : KmlBytes) : Except PyError (List (ℚ × ℚ)) :=
  decodeParse b

/-- Model of the Python str.endswith method used on filenames. -/
def pyEndsWith (s suff : String) : Bool :=
  suff.data.isSuffixOf s.data

/-- Model of read_kmz_file (src/main.py lines 39 to 48): walk the
archive entries in listing order and, for every entry whose name ends in
.kml (case-sensitive str.endswith), decode its bytes as UTF-8, parse
them, and concatenate the coordinates. An archive is modeled as its
entry list of names and byte contents. -/
def read_kmz_file : List (String × KmlBytes) → Except PyError (List (ℚ × ℚ))
  | [] => Except.ok []
  | (name, b) :: rest =>
    if pyEndsWith name ".kml" then
      match decodeParse b with
      | Except.error e => Except.error e
      | Except.ok cs =>
        match read_kmz_file rest with
        | Except.error e => Except.error e
        | Except.ok more => Except.ok (cs ++ more)
    else read_kmz_file rest

/-- Last path segment of a filename, helper for splitextExtChars. -/
def afterLastSep : List Char → List Char → List Char
  | [], acc => acc.reverse
  | c :: cs, acc => if c = '/' then afterLastSep cs [] else afterLastSep cs (c :: acc)

/-- Splits a character list before its last dot, or returns none when it
has no dot. -/
def splitLastDot : List Char → Option (List Char × List Char)
  | [] => none
  | c :: cs =>
    match splitLastDot cs with
    | some r => some (c :: r.1, r.2)
    | none => if c = '.' then some ([], '.' :: cs) else none

/-- Model of os.path.splitext(p)[1] (src/main.py line 56): the extension
starts at the last dot of the last path segment, and is empty when every
character before that dot in the segment is itself a dot (so dotfiles
such as .kml have no extension). -/
def splitextExtChars (p : List Char) : List Char :=
  let base := afterLastSep p []
  match splitLastDot base with
  | none => []
  | some r => if r.1.any (fun c => c ≠ '.') then r.2 else []

/-- The lowercased filename extension computed by read_file (src/main.py
line 56): os.path.splitext(filename)[1].lower(). Char.toLower lowers the
ASCII range, matching str.lower on the ASCII filenames the tool
receives. -/
def extLower (name : String) : String :=
  String.mk ((splitextExtChars name.data).map Char.toLower)

/-- Byte content of an uploaded file under its two possible readings:
asText is the content read as UTF-8 kml text, asZip is the content
opened as a zip archive (none when zipfile.ZipFile raises BadZipFile).
The materialization of the upload into a temporary file (src/main.py
lines 57 to 61, 70) does not change the bytes and is not modeled. -/
structure FileBytes where
  asText : KmlBytes
  asZip : Option (List (String × KmlBytes))

/-- Reading a FileBytes as a kml document. -/
def readAsKml (b : FileBytes) : Except PyError (List (ℚ × ℚ)) :=
  read_kml_file b.asText

/-- Reading a FileBytes as a kmz archive; opening bytes that are not a
zip archive raises BadZipFile. -/
def readAsKmz (b : FileBytes) : Except PyError (List (ℚ × ℚ)) :=
  match b.asZip with
  | none => Except.error PyError.badZipFile
  | some entries => read_kmz_file entries

/-- Model of read_file (src/main.py lines 51 to 70) on an uploaded file:
dispatch on the lowercased filename extension, .kml to the kml reader,
.kmz to the kmz reader, anything else to the explicit ValueError raise
(El archivo debe ser .kml o .kmz). -/
def read_file (name : String) (b : FileBytes) : Except PyError (List (ℚ × ℚ)) :=
  let ext := extLower name
  if ext = ".kml" then readAsKml b
  else if ext = ".kmz" then readAsKmz b
  else Except.error PyError.valueErrorExt

/-- The closure step of calcular_superficie_hectareas (src/main.py lines
84 to 86): when the first and last coordinate differ, append a copy of
the first; the append mutates the list passed by the caller, modeled
here by returning the extended list. On the empty list the step is
unreachable, coords[0] having already raised; the identity branch below
for it is dead code kept only to make the function total. -/
def closeRing (coords : List (ℚ × ℚ)) : List (ℚ × ℚ) :=
  match coords.head?, coords.getLast? with
  | some h, some l => if h ≠ l then coords ++ [h] else coords
  | _, _ => coords

/-- Twice the signed shoelace area of a vertex list taken as consecutive
edges, the sum the geometry library computes on a closed ring. -/
def shoelace2 : List (ℚ × ℚ) → ℚ
  | (x1, y1) :: (x2, y2) :: rest =>
    qAdd (qSub (qMul x1 y2) (qMul x2 y1)) (shoelace2 ((x2, y2) :: rest))
  | _ => 0

/-- Numerator sum of the x coordinate of the area-weighted centroid:
sum of (x i + x succ) times the edge cross term. -/
def centroidNumX : List (ℚ × ℚ) → ℚ
  | (x1, y1) :: (x2, y2) :: rest =>
    qAdd (qMul (qAdd x1 x2) (qSub (qMul x1 y2) (qMul x2 y1)))
      (centroidNumX ((x2, y2) :: rest))
  | _ => 0

/-- Numerator sum of the y coordinate of the area-weighted centroid. -/
def centroidNumY : List (ℚ × ℚ) → ℚ
  | (x1, y1) :: (x2, y2) :: rest =>
    qAdd (qMul (qAdd y1 y2) (qSub (qMul x1 y2) (qMul x2 y1)))
      (centroidNumY ((x2, y2) :: rest))
  | _ => 0

/-- Model of the ring construction inside shapely.geometry.Polygon
(src/main.py line 89): the shell is closed by appending the first vertex
when needed, and a ring with fewer than four vertices after closing is
rejected with a ValueError. An empty shell builds the empty polygon; the
pipeline never reaches that case because coords[0] raises first. -/
def shapelyRing (pts : List (ℚ × ℚ)) : Except PyError (List (ℚ × ℚ)) :=
  match pts.head?, pts.getLast? with
  | some h, some l =>
    let closed := if l = h then pts else pts ++ [h]
    if 4 ≤ closed.length then Except.ok closed else Except.error PyError.valueErrorRing
  | _, _ => Except.ok []

/-- Model of the centroid of the polygon with the given closed ring, the
standard area-weighted formula the geometry library uses whenever the
signed area is nonzero. On a zero-area polygon the library falls back to
a length-weighted centroid whose value involves square roots; that value
has no rational counterpart and is marked by none here. -/
def shapelyCentroid (ring : List (ℚ × ℚ)) : Option (ℚ × ℚ) :=
  let s := shoelace2 ring
  if s = 0 then none
  else some (qDiv (centroidNumX ring) (qMul 3 s), qDiv (centroidNumY ring) (qMul 3 s))

/-- Absolute planar area of the polygon with the given closed ring. -/
def shapelyAreaAbs (ring : List (ℚ × ℚ)) : ℚ :=
  qDiv (qAbs (shoelace2 ring)) 2

/-- Result of calcular_superficie_hectareas: the rounded area, the
formatted centroid string, and the coordinate list as left by the
in-place closure step (the Python function mutates the list the caller
passed). -/
structure MetricsOut where
  area_ha : ℚ
  centroid : String
  coordsOut : List (ℚ × ℚ)
deriving DecidableEq

/-- Model of calcular_superficie_hectareas (src/main.py lines 73 to 97).
On the empty list coords[0] raises IndexError. Otherwise the ring is
closed, the shapely polygon is built from the pairs destructured as
(lat, lon) and re-emitted as (lon, lat) - line 89 reads
Polygon([(lon, lat) for lat, lon in coords]), so with the
(longitude, latitude) pairs produced by parse_kml the polygon x axis
carries the latitude and the y axis the longitude - the area is scaled
by 1000000 and rounded to one decimal, and the centroid string is
formatted as f-string y comma x. -/
def calcular_superficie_hectareas (coords : List (ℚ × ℚ)) : Except PyError MetricsOut :=
  match coords.head?, coords.getLast? with
  | some _, some _ =>
    let coords2 := closeRing coords
    let pts := coords2.map (fun c => (c.2, c.1))
    match shapelyRing pts with
    | Except.error e => Except.error e
    | Except.ok ring =>
      let area_ha := pyRound1 (qMul (shapelyAreaAbs ring) 1000000)
      match shapelyCentroid ring with
      | none => Except.error PyError.centroidFallback
      | some c =>
        Except.ok ⟨area_ha, String.mk (qReprChars c.2 ++ [',', ' '] ++ qReprChars c.1), coords2⟩
  | _, _ => Except.error PyError.indexError

/-- One row of the report table built in the transform loop
(src/main.py line 142): filename, coordinate list as stored, centroid
string and rounded area. -/
structure ReportRow where
  archivo : String
  poligono : List (ℚ × ℚ)
  puntoRef : String
  superficie : ℚ
deriving DecidableEq

/-- Stand-in for the Python str(e) of each modeled exception, used when
the transform loop formats an error record; the precise wording of the
interpreter messages is not semantically relevant and is abbreviated. -/
def pyErrMsg : PyError → String
  | .parseError => "syntax error"
  | .attributeError => "NoneType object has no attribute strip"
  | .indexError => "list index out of range"
  | .valueErrorFloat => "could not convert string to float"
  | .valueErrorRing => "A linearring requires at least 4 coordinates"
  | .valueErrorExt => "El archivo debe ser .kml o .kmz"
  | .unicodeDecodeError => "invalid utf-8"
  | .badZipFile => "File is not a zip file"
  | .centroidFallback => "centroid outside rational model"

/-- The per-file body of the transform loop (src/main.py lines 133 to
144): a filename that fails the case-sensitive endswith check is
recorded as a bare error record before any dispatch; otherwise read_file
and calcular_superficie_hectareas run under the try, a raised exception
becoming an error record of the shape filename (error: message), and
success becoming a report row holding the coordinate list as left by the
metrics engine. -/
def processFile (name : String) (b : FileBytes) : Except String ReportRow :=
  if !(pyEndsWith name ".kmz" || pyEndsWith name ".kml") then Except.error name
  else
    match read_file name b with
    | Except.error e => Except.error (name ++ " (error: " ++ pyErrMsg e ++ ")")
    | Except.ok coords =>
      match calcular_superficie_hectareas coords with
      | Except.error e => Except.error (name ++ " (error: " ++ pyErrMsg e ++ ")")
      | Except.ok out => Except.ok ⟨name, out.coordsOut, out.centroid, out.area_ha⟩

/-- The transform loop over the uploaded files (src/main.py lines 129 to
144): report rows and error records accumulate independently, in file
order. -/
def processAll : List (String × FileBytes) → List ReportRow × List String
  | [] => ([], [])
  | (name, b) :: rest =>
    let r := processAll rest
    match processFile name b with
    | Except.ok row => (row :: r.1, r.2)
    | Except.error m => (r.1, m :: r.2)

/-- Success side of a per-file outcome. -/
def okSide (r : Except String ReportRow) : Option ReportRow :=
  match r with
  | Except.ok row => some row
  | Except.error _ => none

/-- Failure side of a per-file outcome. -/
def errSide (r : Except String ReportRow) : Option String :=
  match r with
  | Except.ok _ => none
  | Except.error m => some m

/-- Claim-side reading of the centroid contract: build the planar
polygon with the first component of each pair (the longitude) on the x
axis and the second (the latitude) on the y axis, and format the
centroid as latitude comma longitude. Written from the words of the
specification to compare with the embedded code. -/
def claimCentroidString (coords : List (ℚ × ℚ)) : Option String :=
  match shapelyRing (closeRing coords) with
  | Except.error _ => none
  | Except.ok ring =>
    match shapelyCentroid ring with
    | none => none
    | some c => some (String.mk (qReprChars c.2 ++ [',', ' '] ++ qReprChars c.1))

/-- Claim-side reading of one coordinate token: split on commas, the
first field is the longitude, the second the latitude, any further field
is discarded; none when the token does not provide two numeric
fields. Written from the words of the specification. -/
def claimTokenPair (tok : List Char) : Option (ℚ × ℚ) :=
  match splitComma tok with
  | lonF :: latF :: _ =>
    match pyFloat lonF, pyFloat latF with
    | some lon, some lat => some (lon, lat)
    | _, _ => none
  | _ => none

/-- Claim-side token list of one coordinates element: the
whitespace-separated tokens of its stripped text, an absent text giving
no tokens. -/
def claimTokens (e : XmlElem) : List (List Char) :=
  pySplitWs (pyStrip (e.text.getD "").data)

/-- Maps claimTokenPair over a token list, none on any failure. -/
def claimTokensPairs : List (List Char) → Option (List (ℚ × ℚ))
  | [] => some []
  | tk :: tks =>
    match claimTokenPair tk, claimTokensPairs tks with
    | some c, some cs => some (c :: cs)
    | _, _ => none

/-- Claim-side parse of a well-formed document: exactly one pair per
token of every namespaced coordinates element anywhere in the tree, in
document order. Written from the words of the specification to compare
with parse_kml. -/
def claimParse (root : XmlElem) : Option (List (ℚ × ℚ)) :=
  go (findallCoords root)
where
  /-- Element-by-element accumulation. -/
  go : List XmlElem → Option (List (ℚ × ℚ))
  | [] => some []
  | e :: es =>
    match claimTokensPairs (claimTokens e), go es with
    | some cs, some rest => some (cs ++ rest)
    | _, _ => none

/-- Whether one element parses without an exception: it has text, and
every token of the text splits into at least two comma-separated fields
with the first two numeric. -/
def elemOk (e : XmlElem) : Bool :=
  match e.text with
  | none => false
  | some t => (pySplitWs (pyStrip t.data)).all (fun tk => (claimTokenPair tk).isSome)

/-- Success test for the Except values of the embedded pipeline. -/
def isOkE {α : Type} (r : Except PyError α) : Bool :=
  match r with
  | Except.ok _ => true
  | Except.error _ => false

/-- Unit square ring, corners in the order named by the specification,
as (longitude, latitude) pairs. -/
def squareCoords : List (ℚ × ℚ) := [(0, 0), (0, 1), (1, 1), (1, 0)]

/-- A 4 by 2 rectangle as (longitude, latitude) pairs: longitudes 0 to
4, latitudes 0 to 2. Its centroid has longitude 2 and latitude 1, so the
two axes tell apart where the square could not. -/
def rectCoords : List (ℚ × ℚ) := [(0, 0), (4, 0), (4, 2), (0, 2)]

/-- A well-formed kml document whose single coordinates element carries
the unit square. -/
def squareDoc : XmlElem :=
  XmlElem.mk "\x7bhttp://www.opengis.net/kml/2.2\x7dkml" none
    [XmlElem.mk "\x7bhttp://www.opengis.net/kml/2.2\x7dPlacemark" none
      [XmlElem.mk coordTag (some "0,0 0,1 1,1 1,0") []]]

/-- A well-formed kml document carrying the rectangle. -/
def rectDoc : XmlElem :=
  XmlElem.mk "\x7bhttp://www.opengis.net/kml/2.2\x7dkml" none
    [XmlElem.mk coordTag (some "0,0 4,0 4,2 0,2") []]

/-- File bytes that decode to the square document and are not a zip
archive. -/
def squareFileBytes : FileBytes :=
  ⟨KmlBytes.utf8 (KmlText.wellFormed squareDoc), none⟩

/-- File bytes that decode to the rectangle document. -/
def rectFileBytes : FileBytes :=
  ⟨KmlBytes.utf8 (KmlText.wellFormed rectDoc), none⟩

/-- File bytes whose text is not well-formed XML. -/
def malformedFileBytes : FileBytes :=
  ⟨KmlBytes.utf8 KmlText.malformed, none⟩

/-- A well-formed document with one coordinates element that has no text
at all, the ET picture of coordinates elements written as an empty
tag. -/
def emptyCoordsDoc : XmlElem :=
  XmlElem.mk "\x7bhttp://www.opengis.net/kml/2.2\x7dkml" none
    [XmlElem.mk coordTag none []]

/-- A document with coordinates elements at two depths, one token with
an altitude field, exercising document order and altitude discarding. -/
def nestedDoc : XmlElem :=
  XmlElem.mk "\x7bhttp://www.opengis.net/kml/2.2\x7dkml" none
    [XmlElem.mk "\x7bhttp://www.opengis.net/kml/2.2\x7dDocument" none
      [XmlElem.mk coordTag (some "0,0 1,0 1,1") []],
     XmlElem.mk coordTag (some " 2,3,99 ") []]

/-- The output of the metrics engine on the unit square. -/
def squareOut : MetricsOut :=
  ⟨1000000, "0.5, 0.5", [(0, 0), (0, 1), (1, 1), (1, 0), (0, 0)]⟩

/-- The output of the metrics engine on the rectangle. -/
def rectOut : MetricsOut :=
  ⟨8000000, "2.0, 1.0", [(0, 0), (4, 0), (4, 2), (0, 2), (0, 0)]⟩

/-- A three-file batch whose second file is malformed XML: good square,
malformed, good rectangle. -/
def demoBatch : List (String × FileBytes) :=
  [("a.kml", squareFileBytes), ("b.kml", malformedFileBytes), ("c.kml", rectFileBytes)]

/-! Helper lemmas: bridges between the kernel-computable arithmetic and
the Mathlib field operations, and structural lemmas about the embedded
functions. -/

theorem qAdd_eq (a b : ℚ) : qAdd a b = a + b := by
  rw [qAdd, Rat.divInt_eq_div]
  have ha : (a.den : ℚ) ≠ 0 := by exact_mod_cast a.den_nz
  have hb : (b.den : ℚ) ≠ 0 := by exact_mod_cast b.den_nz
  conv_rhs => rw [← Rat.num_div_den a, ← Rat.num_div_den b]
  push_cast
  field_simp

theorem qMul_eq (a b : ℚ) : qMul a b = a * b := by
  rw [qMul, Rat.divInt_eq_div]
  have ha : (a.den : ℚ) ≠ 0 := by exact_mod_cast a.den_nz
  have hb : (b.den : ℚ) ≠ 0 := by exact_mod_cast b.den_nz
  conv_rhs => rw [← Rat.num_div_den a, ← Rat.num_div_den b]
  push_cast
  field_simp

theorem qSub_eq (a b : ℚ) : qSub a b = a - b := by
  rw [qSub, qAdd_eq]; ring

theorem qDiv_eq (a b : ℚ) : qDiv a b = a / b := by
  rw [qDiv, Rat.divInt_eq_div]
  by_cases hb0 : b = 0
  · subst hb0; simp
  have ha : (a.den : ℚ) ≠ 0 := by exact_mod_cast a.den_nz
  have hb : (b.den : ℚ) ≠ 0 := by exact_mod_cast b.den_nz
  have hbn : (b.num : ℚ) ≠ 0 := by
    exact_mod_cast Rat.num_ne_zero.mpr hb0
  conv_rhs => rw [← Rat.num_div_den a, ← Rat.num_div_den b]
  push_cast
  field_simp

theorem qAbs_eq (a : ℚ) : qAbs a = |a| := by
  rw [qAbs]
  by_cases h : a.num < 0
  · rw [if_pos h, abs_of_neg (by exact_mod_cast Rat.num_neg.mp h)]
  · rw [if_neg h, abs_of_nonneg]
    have : 0 ≤ a.num := le_of_not_lt h
    exact_mod_cast Rat.num_nonneg.mp this

theorem ratFloor_eq (a : ℚ) : a.floor = ⌊a⌋ := by
  rw [Rat.floor_def' a, Rat.floor_def]

theorem head?_some_ex {α : Type} {coords : List α} {hd : α}
    (h : coords.head? = some hd) : ∃ t, coords = hd :: t := by
  cases coords with
  | nil => simp at h
  | cons a t =>
    simp only [List.head?_cons, Option.some.injEq] at h
    exact ⟨t, by rw [h]⟩

theorem getLast?_some_ex {α : Type} (a : α) (t : List α) :
    ∃ l, (a :: t).getLast? = some l := by
  have h : (a :: t) ≠ [] := by simp
  rcases Option.isSome_iff_exists.mp (List.getLast?_isSome.mpr h) with ⟨l, hl⟩
  exact ⟨l, hl⟩

theorem cons_append_ne_self {α : Type} (a : α) (t : List α) (x : α) :
    a :: t ++ [x] ≠ a :: t := by
  intro h
  have := congrArg List.length h
  simp at this

theorem closeRing_head_last {coords : List (ℚ × ℚ)} {hd : ℚ × ℚ}
    (h : coords.head? = some hd) :
    (closeRing coords).head? = some hd ∧ (closeRing coords).getLast? = some hd := by
  obtain ⟨t, rfl⟩ := head?_some_ex h
  obtain ⟨l, hl⟩ := getLast?_some_ex hd t
  rw [closeRing, List.head?_cons, hl]
  dsimp only
  by_cases he : hd = l
  · subst he
    simp
    exact hl
  · rw [if_pos he]
    constructor
    · rw [List.cons_append, List.head?_cons]
    · rw [List.getLast?_concat]

theorem shapelyRing_error_kind {pts : List (ℚ × ℚ)} {e : PyError}
    (h : shapelyRing pts = Except.error e) : e = PyError.valueErrorRing := by
  rw [shapelyRing] at h
  rcases h1 : pts.head? with _ | a <;> rcases h2 : pts.getLast? with _ | b <;>
    rw [h1, h2] at h <;> dsimp only at h
  · cases h
  · cases h
  · cases h
  · split at h <;> split at h <;> cases h <;> rfl

/-- C7: the closure step appends the first coordinate to the end exactly
when the first and last coordinates differ, and it is idempotent: on an
already-closed ring it is the identity, and a second application never
changes the result of a first. -/
theorem closeRing_appends_iff_and_idempotent :
    ∀ (coords : List (ℚ × ℚ)) (hd : ℚ × ℚ), coords.head? = some hd →
      ((closeRing coords = coords ++ [hd] ↔ coords.getLast? ≠ some hd) ∧
       (coords.getLast? = some hd → closeRing coords = coords) ∧
       closeRing (closeRing coords) = closeRing coords) := by
  intro coords hd hh
  obtain ⟨t, rfl⟩ := head?_some_ex hh
  obtain ⟨l, hl⟩ := getLast?_some_ex hd t
  have hcr : closeRing (hd :: t) = if hd ≠ l then hd :: t ++ [hd] else hd :: t := by
    rw [closeRing, List.head?_cons, hl]
  by_cases he : hd = l
  · subst he
    rw [hcr, if_neg (by simp)]
    refine ⟨?_, fun _ => rfl, ?_⟩
    · constructor
      · intro h
        exact absurd h.symm (cons_append_ne_self hd t hd)
      · intro h
        exact absurd hl h
    · rw [hcr, if_neg (by simp)]
  · rw [hcr, if_pos he]
    refine ⟨?_, ?_, ?_⟩
    · constructor
      · intro _
        rw [hl]
        simp only [ne_eq, Option.some.injEq]
        exact fun h => he h.symm
      · intro _
        rfl
    · intro h
      rw [hl] at h
      exact absurd (Option.some.injEq _ _ ▸ h) (by simpa using fun h2 => he h2.symm)
    · have hh2 : (hd :: t ++ [hd]).head? = some hd := by
        rw [List.cons_append, List.head?_cons]
      have hl2 : (hd :: t ++ [hd]).getLast? = some hd := by
        rw [List.getLast?_concat]
      rw [closeRing, hh2, hl2]
      simp

/-- Witness for C7 at a concrete open ring. -/
theorem closeRing_appends_iff_and_idempotent_witness :
    ((closeRing [((0 : ℚ), (0 : ℚ)), (1, 0)] = [((0 : ℚ), (0 : ℚ)), (1, 0)] ++ [(0, 0)] ↔
        ([((0 : ℚ), (0 : ℚ)), (1, 0)]).getLast? ≠ some (0, 0)) ∧
     (([((0 : ℚ), (0 : ℚ)), (1, 0)]).getLast? = some (0, 0) →
        closeRing [((0 : ℚ), (0 : ℚ)), (1, 0)] = [((0 : ℚ), (0 : ℚ)), (1, 0)]) ∧
     closeRing (closeRing [((0 : ℚ), (0 : ℚ)), (1, 0)]) =
       closeRing [((0 : ℚ), (0 : ℚ)), (1, 0)]) :=
  closeRing_appends_iff_and_idempotent [((0 : ℚ), (0 : ℚ)), (1, 0)] (0, 0) (by decide)

/-- C2, counterexample to the claimed explicit emptiness check: on the
empty coordinate sequence the metrics engine raises the IndexError of
the closure-step indexing coords[0]; no EmptyGeometryError and no
emptiness check exist in the code. -/
theorem calcular_empty_raises_indexing_error :
    calcular_superficie_hectareas [] = Except.error PyError.indexError := by decide

/-- C2 as amended: the metrics engine fails with IndexError exactly on
the empty coordinate sequence, the error coming from the closure step
indexing coords[0] rather than from an explicit emptiness check. -/
theorem calcular_indexError_iff_empty :
    ∀ coords : List (ℚ × ℚ),
      calcular_superficie_hectareas coords = Except.error PyError.indexError ↔
        coords = [] := by
  intro coords
  cases coords with
  | nil => simp [calcular_superficie_hectareas]
  | cons a t =>
    obtain ⟨l, hl⟩ := getLast?_some_ex a t
    apply iff_of_false
    · intro h
      rw [calcular_superficie_hectareas, List.head?_cons, hl] at h
      dsimp only at h
      rcases hr : shapelyRing ((closeRing (a :: t)).map fun c => (c.2, c.1)) with e | ring
      · rw [hr] at h
        dsimp only at h
        cases h
        exact absurd (shapelyRing_error_kind hr) (by decide)
      · rw [hr] at h
        dsimp only at h
        rcases hc : shapelyCentroid ring with _ | c
        · rw [hc] at h
          cases h
        · rw [hc] at h
          cases h
    · simp

/-- Witness for C2: the engine does not raise IndexError on a concrete
nonempty list. -/
theorem calcular_indexError_iff_empty_witness :
    calcular_superficie_hectareas [((5 : ℚ), (7 : ℚ))] ≠
      Except.error PyError.indexError := by
  intro h
  exact absurd ((calcular_indexError_iff_empty [((5 : ℚ), (7 : ℚ))]).mp h) (by decide)

/-- C1, evaluation at the failing input: on the rectangle with
longitudes 0 to 4 and latitudes 0 to 2 (centroid longitude 2, centroid
latitude 1) the engine returns the centroid string 2.0, 1.0, longitude
first, because line 89 destructures the (longitude, latitude) pairs
produced by parse_kml as (lat, lon) and so builds the polygon with the
latitude on the x axis; the claimed contract, x equal to longitude and a
latitude-first string, would give 1.0, 2.0. -/
theorem calcular_swaps_axes_on_rect :
    calcular_superficie_hectareas rectCoords = Except.ok rectOut ∧
    rectOut.centroid = "2.0, 1.0" ∧
    claimCentroidString rectCoords = some "1.0, 2.0" ∧
    some rectOut.centroid ≠ claimCentroidString rectCoords := by decide

/-- C3, counterexample: a coordinates element written as an empty tag
has text None, so elem.text.strip() raises AttributeError instead of
contributing zero pairs, and the failure is not one of the two ParseError
conditions the claim allows. -/
theorem parse_kml_fails_on_textless_coordinates :
    parse_kml (KmlText.wellFormed emptyCoordsDoc) =
      Except.error PyError.attributeError := by decide

/-- C4, counterexample: a file named a.KML holds content the Container
Reader itself accepts (read_file lowercases the extension and parses it
to the square), yet the batch loop filters filenames with the
case-sensitive endswith check, so the file is recorded as an error
record and never dispatched. -/
theorem batch_rejects_uppercase_extension :
    processAll [("a.KML", squareFileBytes)] = ([], ["a.KML"]) ∧
    read_file "a.KML" squareFileBytes = Except.ok squareCoords := by decide

theorem closeRing_of_ne {coords : List (ℚ × ℚ)} {hd : ℚ × ℚ}
    (hh : coords.head? = some hd) (hne : coords.getLast? ≠ some hd) :
    closeRing coords = coords ++ [hd] := by
  obtain ⟨t, rfl⟩ := head?_some_ex hh
  obtain ⟨l, hl⟩ := getLast?_some_ex hd t
  rw [closeRing, List.head?_cons, hl]
  dsimp only
  rw [if_pos]
  intro he
  exact hne (he ▸ hl)

theorem shoelace2_swap (l : List (ℚ × ℚ)) :
    shoelace2 (l.map (fun c => (c.2, c.1))) = -shoelace2 l := by
  induction l with
  | nil => simp [shoelace2]
  | cons p t ih =>
    cases t with
    | nil =>
      obtain ⟨x, y⟩ := p
      simp [shoelace2]
    | cons q r =>
      obtain ⟨x1, y1⟩ := p
      obtain ⟨x2, y2⟩ := q
      have ih2 := ih
      simp only [List.map_cons] at ih2 ⊢
      rw [shoelace2, shoelace2, qAdd_eq, qAdd_eq, qSub_eq, qSub_eq, qMul_eq, qMul_eq,
        qMul_eq, qMul_eq, ih2]
      ring

theorem shapelyRing_on_closed {pts : List (ℚ × ℚ)} {h : ℚ × ℚ}
    (hh : pts.head? = some h) (hl : pts.getLast? = some h) :
    shapelyRing pts =
      if 4 ≤ pts.length then Except.ok pts else Except.error PyError.valueErrorRing := by
  rw [shapelyRing, hh, hl]
  dsimp only
  rw [if_pos rfl]

theorem calcular_ok_anatomy {coords : List (ℚ × ℚ)} {out : MetricsOut}
    (h : calcular_superficie_hectareas coords = Except.ok out) :
    ∃ hd c, coords.head? = some hd ∧
      shapelyCentroid ((closeRing coords).map (fun p => (p.2, p.1))) = some c ∧
      4 ≤ ((closeRing coords).map (fun p => (p.2, p.1))).length ∧
      out = ⟨pyRound1 (qMul (shapelyAreaAbs ((closeRing coords).map (fun p => (p.2, p.1)))) 1000000),
        String.mk (qReprChars c.2 ++ [',', ' '] ++ qReprChars c.1), closeRing coords⟩ := by
  cases coords with
  | nil => cases h
  | cons a t =>
    obtain ⟨l, hl⟩ := getLast?_some_ex a t
    rw [calcular_superficie_hectareas, List.head?_cons, hl] at h
    dsimp only at h
    have hch := @closeRing_head_last (a :: t) a (by rw [List.head?_cons])
    have hph : (((closeRing (a :: t)).map (fun p => (p.2, p.1))).head?) = some (a.2, a.1) := by
      rw [List.head?_map, hch.1]
      rfl
    have hpl : (((closeRing (a :: t)).map (fun p => (p.2, p.1))).getLast?) = some (a.2, a.1) := by
      rw [List.getLast?_map, hch.2]
      rfl
    rw [shapelyRing_on_closed hph hpl] at h
    by_cases hlen : 4 ≤ ((closeRing (a :: t)).map (fun p => (p.2, p.1))).length
    · rw [if_pos hlen] at h
      dsimp only at h
      rcases hc : shapelyCentroid ((closeRing (a :: t)).map fun p => (p.2, p.1)) with _ | c
      · rw [hc] at h
        cases h
      · rw [hc] at h
        cases h
        exact ⟨a, c, List.head?_cons, hc, hlen, rfl⟩
    · rw [if_neg hlen] at h
      cases h

/-- C6: whenever the metrics engine returns, the area field equals the
absolute shoelace area of the closed ring scaled by 1000000 and rounded
to one decimal place. The internal axis swap of line 89 does not matter
here, a reflection only changes the sign the absolute value removes. -/
theorem area_ha_eq_shoelace_scaled_rounded :
    ∀ (coords : List (ℚ × ℚ)) (out : MetricsOut),
      calcular_superficie_hectareas coords = Except.ok out →
      out.area_ha = pyRound1 (|shoelace2 (closeRing coords)| / 2 * 1000000) := by
  intro coords out h
  obtain ⟨hd, c, _, _, _, rfl⟩ := calcular_ok_anatomy h
  show pyRound1 _ = _
  congr 1
  rw [qMul_eq, shapelyAreaAbs, qDiv_eq, qAbs_eq, shoelace2_swap, abs_neg]

/-- Witness for C6 at the unit square of the specification, where the
scaled rounded area is exactly 1000000.0. -/
theorem area_ha_eq_shoelace_scaled_rounded_witness :
    calcular_superficie_hectareas squareCoords = Except.ok squareOut ∧
    squareOut.area_ha = pyRound1 (|shoelace2 (closeRing squareCoords)| / 2 * 1000000) ∧
    squareOut.area_ha = 1000000 :=
  ⟨by decide, area_ha_eq_shoelace_scaled_rounded squareCoords squareOut (by decide), by decide⟩

/-- C10: the metrics engine extends the very list the caller passed, so
when the parsed sequence is not closed the report row built by the batch
loop stores the sequence with the appended closing point, one element
longer than what the file contained. -/
theorem report_row_stores_closed_ring :
    ∀ (name : String) (b : FileBytes) (coords : List (ℚ × ℚ)) (hd : ℚ × ℚ) (out : MetricsOut),
      pyEndsWith name ".kml" = true →
      read_file name b = Except.ok coords →
      coords.head? = some hd →
      coords.getLast? ≠ some hd →
      calcular_superficie_hectareas coords = Except.ok out →
      out.coordsOut = coords ++ [hd] ∧
      coords ++ [hd] ≠ coords ∧
      (processAll [(name, b)]).1 =
        [⟨name, coords ++ [hd], out.centroid, out.area_ha⟩] := by
  intro name b coords hd out hkml hread hh hne hcalc
  have hclose : closeRing coords = coords ++ [hd] := closeRing_of_ne hh hne
  have hout : out.coordsOut = coords ++ [hd] := by
    obtain ⟨hd2, c, _, _, _, rfl⟩ := calcular_ok_anatomy hcalc
    exact hclose
  have hpf : processFile name b =
      Except.ok ⟨name, out.coordsOut, out.centroid, out.area_ha⟩ := by
    simp [processFile, hkml, hread, hcalc]
  refine ⟨hout, ?_, ?_⟩
  · obtain ⟨t, rfl⟩ := head?_some_ex hh
    exact cons_append_ne_self hd t hd
  · simp [processAll, hpf, hout]

/-- Witness for C10 on a concrete open rectangle file. -/
theorem report_row_stores_closed_ring_witness :
    rectOut.coordsOut = rectCoords ++ [(0, 0)] ∧
    rectCoords ++ [(0, 0)] ≠ rectCoords ∧
    (processAll [("r.kml", rectFileBytes)]).1 =
      [⟨"r.kml", rectCoords ++ [(0, 0)], rectOut.centroid, rectOut.area_ha⟩] :=
  report_row_stores_closed_ring "r.kml" rectFileBytes rectCoords (0, 0) rectOut
    (by decide) (by decide) (by decide) (by decide) (by decide)

theorem read_kmz_file_all_skipped :
    ∀ entries : List (String × KmlBytes),
      (∀ p ∈ entries, pyEndsWith p.1 ".kml" = false) →
      read_kmz_file entries = Except.ok [] := by
  intro entries
  induction entries with
  | nil => intro _; rfl
  | cons e rest ih =>
    intro h
    obtain ⟨n, b⟩ := e
    have hn : pyEndsWith n ".kml" = false := h (n, b) (List.mem_cons_self _ _)
    rw [read_kmz_file, hn]
    exact ih (fun p hp => h p (List.mem_cons_of_mem _ hp))

/-- C8: an archive whose only entry ending in .kml carries a given
document produces exactly the coordinate sequence of reading that
document as a .kml file; other entries, before or after, are skipped. -/
theorem kmz_single_kml_roundtrip :
    ∀ (pre post : List (String × KmlBytes)) (name : String) (b : KmlBytes),
      (∀ p ∈ pre, pyEndsWith p.1 ".kml" = false) →
      (∀ p ∈ post, pyEndsWith p.1 ".kml" = false) →
      pyEndsWith name ".kml" = true →
      read_kmz_file (pre ++ (name, b) :: post) = read_kml_file b := by
  intro pre post name b
  induction pre with
  | nil =>
    intro _ hpost hname
    rw [List.nil_append, read_kmz_file, hname]
    rw [if_pos rfl]
    rcases hd : decodeParse b with e | cs
    · rw [read_kml_file, hd]
    · rw [read_kml_file, hd, read_kmz_file_all_skipped post hpost]
      dsimp only
      rw [List.append_nil]
  | cons e rest ih =>
    intro hpre hpost hname
    obtain ⟨n2, b2⟩ := e
    have hn2 : pyEndsWith n2 ".kml" = false := hpre (n2, b2) (List.mem_cons_self _ _)
    rw [List.cons_append, read_kmz_file, hn2]
    exact ih (fun p hp => hpre p (List.mem_cons_of_mem _ hp)) hpost hname

/-- Witness for C8 on a concrete archive with one png entry and one kml
entry. -/
theorem kmz_single_kml_roundtrip_witness :
    read_kmz_file [("img.png", KmlBytes.notUtf8),
        ("doc.kml", KmlBytes.utf8 (KmlText.wellFormed squareDoc))] =
      read_kml_file (KmlBytes.utf8 (KmlText.wellFormed squareDoc)) :=
  kmz_single_kml_roundtrip [("img.png", KmlBytes.notUtf8)] [] "doc.kml"
    (KmlBytes.utf8 (KmlText.wellFormed squareDoc))
    (by intro p hp; simp at hp; rw [hp]; decide) (by intro p hp; simp at hp)
    (by decide)

/-- C9: the batch loop processes the files independently and in order,
every failing file contributing exactly one error record and every
successful file exactly one report row, no failure aborting the rest;
and on the concrete three-file batch whose second file is malformed XML
the result is exactly two report rows and one error record naming the
second filename. -/
theorem processAll_independent_accumulation :
    (∀ files : List (String × FileBytes),
        processAll files =
          (files.filterMap (fun f => okSide (processFile f.1 f.2)),
           files.filterMap (fun f => errSide (processFile f.1 f.2)))) ∧
    processAll demoBatch =
      ([⟨"a.kml", [(0, 0), (0, 1), (1, 1), (1, 0), (0, 0)], "0.5, 0.5", 1000000⟩,
        ⟨"c.kml", [(0, 0), (4, 0), (4, 2), (0, 2), (0, 0)], "2.0, 1.0", 8000000⟩],
       ["b.kml (error: syntax error)"]) := by
  constructor
  · intro files
    induction files with
    | nil => rfl
    | cons f rest ih =>
      obtain ⟨n, b⟩ := f
      rcases hp : processFile n b with m | row
      · simp [processAll, List.filterMap_cons, okSide, errSide, hp, ih]
      · simp [processAll, List.filterMap_cons, okSide, errSide, hp, ih]
  · decide

theorem parseToken_ok_claim {tk : List Char} {c : ℚ × ℚ}
    (h : parseToken tk = Except.ok c) : claimTokenPair tk = some c := by
  rw [parseToken] at h
  rw [claimTokenPair]
  rcases hs : splitComma tk with _ | ⟨p0, rest⟩ <;> rw [hs] at h <;> dsimp only at h
  · cases h
  · rcases h0 : pyFloat p0 with _ | lon <;> rw [h0] at h <;> dsimp only at h
    · cases h
    · rcases rest with _ | ⟨p1, rest2⟩ <;> dsimp only at h
      · cases h
      · rcases h1 : pyFloat p1 with _ | lat <;> rw [h1] at h <;> dsimp only at h
        · cases h
        · cases h
          dsimp only
          rw [h0, h1]

theorem tokensParse_ok_claim :
    ∀ {tks : List (List Char)} {cs : List (ℚ × ℚ)},
      tokensParse tks = Except.ok cs → claimTokensPairs tks = some cs := by
  intro tks
  induction tks with
  | nil =>
    intro cs h
    cases h
    rfl
  | cons tk rest ih =>
    intro cs h
    rw [tokensParse] at h
    rcases ht : parseToken tk with e | c <;> rw [ht] at h <;> dsimp only at h
    · cases h
    · rcases hr : tokensParse rest with e | more <;> rw [hr] at h <;> dsimp only at h
      · cases h
      · cases h
        rw [claimTokensPairs, parseToken_ok_claim ht, ih hr]

theorem parseElem_ok_claim {e : XmlElem} {cs : List (ℚ × ℚ)}
    (h : parseElem e = Except.ok cs) :
    claimTokensPairs (claimTokens e) = some cs := by
  obtain ⟨tag, tx, ch⟩ := e
  cases tx with
  | none => cases h
  | some t =>
    rw [parseElem] at h
    dsimp only [XmlElem.text] at h
    rw [claimTokens]
    dsimp only [XmlElem.text, Option.getD]
    exact tokensParse_ok_claim h

theorem elemsParse_ok_claim :
    ∀ {es : List XmlElem} {cs : List (ℚ × ℚ)},
      elemsParse es = Except.ok cs → claimParse.go es = some cs := by
  intro es
  induction es with
  | nil =>
    intro cs h
    cases h
    rfl
  | cons e rest ih =>
    intro cs h
    rw [elemsParse] at h
    rcases he : parseElem e with err | first <;> rw [he] at h <;> dsimp only at h
    · cases h
    · rcases hr : elemsParse rest with err | more <;> rw [hr] at h <;> dsimp only at h
      · cases h
      · cases h
        rw [claimParse.go, parseElem_ok_claim he, ih hr]

/-- C5: whenever parse_kml succeeds on a well-formed document, its
result is exactly the claim-side reading: one (float longitude, float
latitude) pair per whitespace-separated token of every namespaced
coordinates element anywhere in the tree, in document order, longitude
from the first comma field, latitude from the second, further fields
discarded. -/
theorem parse_kml_refines_claim :
    ∀ (root : XmlElem) (res : List (ℚ × ℚ)),
      parse_kml (KmlText.wellFormed root) = Except.ok res →
      claimParse root = some res := by
  intro root res h
  rw [parse_kml] at h
  rw [claimParse]
  exact elemsParse_ok_claim h

/-- Witness for C5 on a document with nested coordinates elements and an
altitude field. -/
theorem parse_kml_refines_claim_witness :
    claimParse nestedDoc = some [(0, 0), (1, 0), (1, 1), (2, 3)] :=
  parse_kml_refines_claim nestedDoc [(0, 0), (1, 0), (1, 1), (2, 3)] (by decide)

theorem parseToken_ok_eq_claim (tk : List Char) :
    isOkE (parseToken tk) = (claimTokenPair tk).isSome := by
  rw [parseToken, claimTokenPair]
  rcases hs : splitComma tk with _ | ⟨p0, rest⟩ <;> dsimp only
  · rfl
  · rcases rest with _ | ⟨p1, rest2⟩ <;> dsimp only
    · rcases h0 : pyFloat p0 with _ | lon <;> rfl
    · rcases h0 : pyFloat p0 with _ | lon <;> dsimp only
      · rfl
      · rcases h1 : pyFloat p1 with _ | lat <;> rfl

theorem tokensParse_ok_eq_all :
    ∀ tks : List (List Char),
      isOkE (tokensParse tks) = tks.all (fun tk => (claimTokenPair tk).isSome) := by
  intro tks
  induction tks with
  | nil => rfl
  | cons tk rest ih =>
    rw [tokensParse, List.all_cons, ← parseToken_ok_eq_claim tk, ← ih]
    rcases ht : parseToken tk with e | c <;> dsimp only [isOkE]
    · rfl
    · rcases hr : tokensParse rest with e | more <;> rfl

theorem parseElem_ok_eq_elemOk (e : XmlElem) :
    isOkE (parseElem e) = elemOk e := by
  obtain ⟨tag, tx, ch⟩ := e
  cases tx with
  | none => rfl
  | some t =>
    rw [parseElem, elemOk]
    dsimp only [XmlElem.text]
    exact tokensParse_ok_eq_all _

theorem elemsParse_ok_eq_all :
    ∀ es : List XmlElem, isOkE (elemsParse es) = es.all (fun e => elemOk e) := by
  intro es
  induction es with
  | nil => rfl
  | cons e rest ih =>
    rw [elemsParse, List.all_cons, ← parseElem_ok_eq_elemOk e, ← ih]
    rcases he : parseElem e with err | cs <;> dsimp only [isOkE]
    · rfl
    · rcases hr : elemsParse rest with err | more <;> rfl

/-- C3 as amended: parse_kml fails exactly when the document is not
well-formed XML, when some coordinates element has no text at all (the
AttributeError of line 24), or when some token of some element does not
supply two numeric comma-separated fields; and a coordinates element
whose text is whitespace-only but present contributes zero pairs without
failing. -/
theorem parse_kml_success_characterization :
    (∀ t : KmlText,
        isOkE (parse_kml t) = true ↔
          ∃ root, t = KmlText.wellFormed root ∧
            ∀ e ∈ findallCoords root, elemOk e = true) ∧
    (∀ (tag : String) (tx : String) (ch : List XmlElem),
        tx.data.all isPySpace = true →
        parseElem (XmlElem.mk tag (some tx) ch) = Except.ok []) := by
  constructor
  · intro t
    cases t with
    | malformed =>
      simp only [parse_kml, isOkE]
      constructor
      · intro h
        cases h
      · rintro ⟨root, heq, -⟩
        cases heq
    | wellFormed root =>
      rw [parse_kml]
      constructor
      · intro h
        refine ⟨root, rfl, ?_⟩
        rw [elemsParse_ok_eq_all] at h
        exact fun e he => List.all_eq_true.mp h e he
      · rintro ⟨root2, heq, hall⟩
        cases heq
        rw [elemsParse_ok_eq_all]
        exact List.all_eq_true.mpr fun e he => hall e he
  · intro tag tx ch hsp
    rw [parseElem]
    dsimp only [XmlElem.text]
    have h1 : pyStrip tx.data = [] := by
      rw [pyStrip]
      rw [List.dropWhile_eq_nil_iff.mpr (fun x hx => List.all_eq_true.mp hsp x hx)]
      rfl
    rw [h1]
    rfl

/-- Witness for C3 as amended: a whitespace-only coordinates element
contributes zero pairs. -/
theorem parse_kml_success_characterization_witness :
    parseElem (XmlElem.mk coordTag (some "  ") []) = Except.ok [] :=
  parse_kml_success_characterization.2 coordTag "  " [] (by decide)

/-- C4 as amended: the Container Reader itself is case-insensitive on
the extension, rejecting everything that is not .kml or .kmz with the
explicit ValueError and dispatching .kml and .kmz in any letter case to
the corresponding reader; but the batch loop pre-filters filenames with
the case-sensitive endswith check, so a file whose lowercase extension
is kml or kmz but whose literal name ends in neither is rejected with a
bare error record before the Container Reader ever runs. -/
theorem read_file_dispatch_batch_filter :
    (∀ (name : String) (b : FileBytes),
        extLower name ≠ ".kml" → extLower name ≠ ".kmz" →
        read_file name b = Except.error PyError.valueErrorExt) ∧
    (∀ (name : String) (b : FileBytes),
        extLower name = ".kml" → read_file name b = readAsKml b) ∧
    (∀ (name : String) (b : FileBytes),
        extLower name = ".kmz" → read_file name b = readAsKmz b) ∧
    (∀ (name : String) (b : FileBytes),
        pyEndsWith name ".kmz" = false → pyEndsWith name ".kml" = false →
        processAll [(name, b)] = ([], [name])) := by
  refine ⟨?_, ?_, ?_, ?_⟩
  · intro name b h1 h2
    simp [read_file, h1, h2]
  · intro name b h
    simp [read_file, h]
  · intro name b h
    simp [read_file, h]
  · intro name b h1 h2
    simp [processAll, processFile, h1, h2]

/-- Witness for C4 as amended at concrete filenames in several letter
cases. -/
theorem read_file_dispatch_batch_filter_witness :
    read_file "poly.gpx" squareFileBytes = Except.error PyError.valueErrorExt ∧
    read_file "b.KML" squareFileBytes = readAsKml squareFileBytes ∧
    read_file "b.KMZ" squareFileBytes = readAsKmz squareFileBytes ∧
    processAll [("c.KmL", squareFileBytes)] = ([], ["c.KmL"]) :=
  ⟨read_file_dispatch_batch_filter.1 "poly.gpx" squareFileBytes (by decide) (by decide),
   read_file_dispatch_batch_filter.2.1 "b.KML" squareFileBytes (by decide),
   read_file_dispatch_batch_filter.2.2.1 "b.KMZ" squareFileBytes (by decide),
   read_file_dispatch_batch_filter.2.2.2 "c.KmL" squareFileBytes (by decide) (by decide)⟩
